import Mathlib

/-!
Verification development for the LogSplitter Controller telemetry pipeline.

The definitions below are shallow embeddings of the Python source:
* `LogSplitterProtocol` — the structured protocol header
  (`logsplitter_meshtastic_protocol.py`): `struct.pack`/`unpack` of the
  format `'<BBHIQ8sH'`, `LogSplitterProtocolHeader.to_bytes`/`from_bytes`,
  and `LogSplitterProtocol.parse_message`.
* `FrameScanner` — the chunk scanner of
  `LCARSProtobufDecoder.process_stream` (`lcars_protobuf_decoder.py`) and
  `TelemetryDecoder.run` (`lcars_docs_server.py`).
* `SequenceTracker` — the sequence-gap logic of
  `EnhancedTelemetryReceiver.decode_binary_message`
  (`meshtastic_telemetry_receiver.py`).
* `ProtobufDb` — the SQLite state transitions of `ProtobufDatabase`
  (`lcars_protobuf_decoder.py`), with the database modelled as explicit
  tables and wall-clock time passed as an explicit parameter.
* `LinkQuality` — `NetworkMonitor.calculate_quality_score`
  (`meshtastic_bridge.py`), with numbers modelled as rationals.
* `Distributor` — the bounded `deque(maxlen=50)` buffer and the
  server-sent-events subscriber loop of `lcars_docs_server.py`.

Bytes are modelled as natural numbers (each `< 256` where it matters);
byte strings are `List Nat`.
-/

namespace LogSplitterProtocol

/-- Little-endian encoding of `n` into exactly `w` bytes
(the behaviour of `struct.pack` for an in-range value). -/
def leBytes : Nat → Nat → List Nat
  | 0, _ => []
  | w + 1, n => n % 256 :: leBytes w (n / 256)

/-- Little-endian value of the `w` bytes of `buf` starting at `off`
(the behaviour of `struct.unpack` for one field). -/
def leRead (buf : List Nat) (off w : Nat) : Nat :=
  ((buf.drop off).take w).foldr (fun b acc => b + 256 * acc) 0

/-- Header dataclass `LogSplitterProtocolHeader`.  The source identifier is
kept as its UTF-8 byte string. -/
structure Header where
  version : Nat
  messageType : Nat
  sequence : Nat
  timestamp : Nat
  sourceId : List Nat
  payloadSize : Nat
  deriving DecidableEq, Repr

/-- `self.source_id.encode('utf-8')[:8].ljust(8, b'\0')`. -/
def sourceFieldBytes (src : List Nat) : List Nat :=
  src.take 8 ++ List.replicate (8 - (src.take 8).length) 0

/-- `LogSplitterProtocolHeader.to_bytes`:
`struct.pack('<BBHIQ8sH', version, type, sequence, timestamp, 0, source, payload_size)`.
The format is B(1) B(1) H(2) I(4) Q(8) 8s(8) H(2) = 26 bytes. -/
def toBytes (h : Header) : List Nat :=
  leBytes 1 h.version ++ leBytes 1 h.messageType ++ leBytes 2 h.sequence ++
    leBytes 4 h.timestamp ++ leBytes 8 0 ++ sourceFieldBytes h.sourceId ++
    leBytes 2 h.payloadSize

/-- The Python exceptions raised by parsing. -/
inductive ParseErr where
  /-- `ValueError("Header data too short")` / `ValueError("Message too short for header")`. -/
  | headerTooShort
  /-- `struct.error` from `struct.unpack` on a buffer of the wrong size. -/
  | structError
  /-- `ValueError` from `LogSplitterMessageType(msg_type)` on an unknown tag. -/
  | badMessageType
  /-- `ValueError("Payload size mismatch")`. -/
  | payloadSizeMismatch
  deriving DecidableEq, Repr

/-- `struct.calcsize('<BBHIQ8sH')`. -/
def packedHeaderSize : Nat := 26

/-- `HEADER_SIZE` constant from the source. -/
def HEADER_SIZE : Nat := 18

/-- The valid `LogSplitterMessageType` enumeration values. -/
def isValidMessageType (t : Nat) : Bool :=
  (0x10 ≤ t && t ≤ 0x17) || (0x20 ≤ t && t ≤ 0x22) || (0x30 ≤ t && t ≤ 0x32) ||
    (0x40 ≤ t && t ≤ 0x44) || (0x50 ≤ t && t ≤ 0x52)

/-- `struct.unpack('<BBHIQ8sH', buf)`: requires the buffer length to equal
the packed size (26), else raises `struct.error`.  Field offsets:
B at 0, B at 1, H at 2, I at 4, Q at 8, 8s at 16, H at 24. -/
def unpackHeaderFormat (buf : List Nat) :
    Option (Nat × Nat × Nat × Nat × Nat × List Nat × Nat) :=
  if buf.length = packedHeaderSize then
    some (leRead buf 0 1, leRead buf 1 1, leRead buf 2 2, leRead buf 4 4,
      leRead buf 8 8, (buf.drop 16).take 8, leRead buf 24 2)
  else none

/-- `bytes.rstrip(b'\0')`. -/
def rstripZeros (l : List Nat) : List Nat :=
  (l.reverse.dropWhile (· = 0)).reverse

/-- `LogSplitterProtocolHeader.from_bytes`: checks `len(data) < 18`, then
runs `struct.unpack('<BBHIQ8sH', data[:18])`. -/
def fromBytes (data : List Nat) : Except ParseErr Header :=
  if data.length < 18 then .error .headerTooShort
  else
    match unpackHeaderFormat (data.take 18) with
    | none => .error .structError
    | some (v, t, s, ts, _, src, ps) =>
      if isValidMessageType t then
        .ok ⟨v, t, s, ts, rstripZeros src, ps⟩
      else .error .badMessageType

/-- `LogSplitterProtocol.parse_message`: header check, `from_bytes` on the
first 18 bytes, then `payload = data[18:18+payload_size]` compared against
the declared size. -/
def parseMessage (data : List Nat) : Except ParseErr (Header × List Nat) :=
  if data.length < 18 then .error .headerTooShort
  else
    match fromBytes (data.take 18) with
    | .error e => .error e
    | .ok h =>
      let payload := (data.drop 18).take h.payloadSize
      if payload.length ≠ h.payloadSize then .error .payloadSizeMismatch
      else .ok (h, payload)

end LogSplitterProtocol

namespace FrameScanner

/-- `0x10 <= byte <= 0x17`, the valid telemetry tag range. -/
def isTag (b : Nat) : Bool := 0x10 ≤ b && b ≤ 0x17

/-- `chunk[max(0, i - 5) : min(len(chunk), i + 15)]` — the context window
extracted around a tag byte found at offset `i`.  (`max 0` is automatic
with truncated `Nat` subtraction.) -/
def contextWindow (chunk : List Nat) (i : Nat) : List Nat :=
  (chunk.take (min chunk.length (i + 15))).drop (i - 5)

/-- An emitted frame: the tag byte and its context window. -/
structure Frame where
  msgType : Nat
  context : List Nat
  deriving DecidableEq, Repr

/-- The scan loop `for i in range(len(chunk))` of `process_stream`,
carried out over the suffix of the chunk that remains, with `i` the
offset of that suffix in the chunk. -/
def scanAux (chunk : List Nat) : List Nat → Nat → List Frame
  | [], _ => []
  | b :: rest, i =>
    if isTag b then ⟨b, contextWindow chunk i⟩ :: scanAux chunk rest (i + 1)
    else scanAux chunk rest (i + 1)

/-- Frames emitted for one received chunk by
`LCARSProtobufDecoder.process_stream` / `TelemetryDecoder.run`. -/
def processChunk (chunk : List Nat) : List Frame := scanAux chunk chunk 0

end FrameScanner

namespace SequenceTracker

/-- The receiver state relevant to gap detection: `self.last_sequence_id`,
initially `None`. -/
structure RecvState where
  lastSeq : Option Nat
  deriving DecidableEq, Repr

/-- `expected = (self.last_sequence_id + 1) & 0xFF`. -/
def seqExpected (p : Nat) : Nat := (p + 1) % 256

/-- A "Sequence gap" diagnostic line, carrying the expected and the
received sequence value. -/
structure GapEvent where
  expected : Nat
  actual : Nat
  deriving DecidableEq, Repr

/-- The gap check of `decode_binary_message`: no check when there is no
previous value; otherwise report when the received value is not the
successor mod 256. -/
def seqCheck (last : Option Nat) (s : Nat) : List GapEvent :=
  match last with
  | none => []
  | some p => if s ≠ seqExpected p then [⟨seqExpected p, s⟩] else []

/-- The decoded message header fields built by `decode_binary_message`
(payload-specific fields are carried as the raw tail). -/
structure Msg where
  msgType : Nat
  sequence : Nat
  timestamp : Nat
  payload : List Nat
  deriving DecidableEq, Repr

/-- `EnhancedTelemetryReceiver.decode_binary_message`, restricted to the
state it reads and writes: returns the decoded message (or `none` when
shorter than the 6-byte header), the updated `last_sequence_id`, and the
gap events printed.  `msg_type = data[0]`, `sequence_id = data[1]`,
`timestamp = struct.unpack('<I', data[2:6])`. -/
def decodeBinaryMessage (st : RecvState) (data : List Nat) :
    Option Msg × RecvState × List GapEvent :=
  if data.length < 6 then (none, st, [])
  else
    let msgType := data.getD 0 0
    let seqId := data.getD 1 0
    let ts := LogSplitterProtocol.leRead data 2 4
    let gaps := seqCheck st.lastSeq seqId
    (some ⟨msgType, seqId, ts, data.drop 6⟩, ⟨some seqId⟩, gaps)

/-- Feeding a list of binary messages through the receiver, collecting
all gap events in order. -/
def runReceiver (st : RecvState) : List (List Nat) → List GapEvent × RecvState
  | [] => ([], st)
  | d :: rest =>
    let r := decodeBinaryMessage st d
    let tail := runReceiver r.2.1 rest
    (r.2.2 ++ tail.1, tail.2)

/-- The gap events produced by a list of raw sequence values. -/
def runSeqs (last : Option Nat) : List Nat → List GapEvent
  | [] => []
  | s :: rest => seqCheck last s ++ runSeqs (some s) rest

/-- The last element of `p :: xs` (the sequence value most recently seen). -/
def lastVal (p : Nat) (xs : List Nat) : Nat :=
  xs.foldl (fun _ b => b) p

/-- The "strictly consecutive modulo 256" relation between adjacent
sequence values. -/
def Consecutive (a b : Nat) : Prop := b = seqExpected a

instance (a b : Nat) : Decidable (Consecutive a b) :=
  inferInstanceAs (Decidable (b = seqExpected a))

end SequenceTracker

namespace ProtobufDb

/-- `MESSAGE_TYPES` dictionary of `lcars_protobuf_decoder.py`. -/
def MESSAGE_TYPES (t : Nat) : Option String :=
  if t = 0x10 then some "Digital I/O"
  else if t = 0x11 then some "Relays"
  else if t = 0x12 then some "Pressure"
  else if t = 0x13 then some "Sequence"
  else if t = 0x14 then some "Error"
  else if t = 0x15 then some "Safety"
  else if t = 0x16 then some "System Status"
  else if t = 0x17 then some "Heartbeat"
  else none

/-- One hex digit, upper case, as in Python's `%02X` formatting. -/
def hexDigit (n : Nat) : String :=
  if n = 0 then "0" else if n = 1 then "1" else if n = 2 then "2"
  else if n = 3 then "3" else if n = 4 then "4" else if n = 5 then "5"
  else if n = 6 then "6" else if n = 7 then "7" else if n = 8 then "8"
  else if n = 9 then "9" else if n = 10 then "A" else if n = 11 then "B"
  else if n = 12 then "C" else if n = 13 then "D" else if n = 14 then "E"
  else "F"

/-- `f"Unknown (0x{msg_type:02X})"` for a byte value. -/
def unknownName (t : Nat) : String :=
  "Unknown (0x" ++ hexDigit (t / 16 % 16) ++ hexDigit (t % 16) ++ ")"

/-- `MESSAGE_TYPES.get(msg_type, f"Unknown (0x{msg_type:02X})")`. -/
def messageTypeName (t : Nat) : String :=
  (MESSAGE_TYPES t).getD (unknownName t)

/-- A row of the `sessions` table (ISO-formatted duplicates of the
timestamps are omitted; they are pure functions of the `REAL` columns). -/
structure SessionRow where
  start_time : Nat
  end_time : Option Nat
  message_count : Nat
  port : String
  baud_rate : Nat
  deriving DecidableEq, Repr

/-- A row of the `raw_messages` table. -/
structure RawRow where
  timestamp : Nat
  message_type : Nat
  message_type_name : String
  size : Nat
  raw_data : List Nat
  session_id : String
  deriving DecidableEq, Repr

/-- The database state: `sessions` keyed by `session_id` (primary key),
append-only `raw_messages`, and `statistics` keyed by
`(session_id, message_type)`. -/
structure Db where
  sessions : List (String × SessionRow)
  raw_messages : List RawRow
  statistics : List ((String × String) × Nat)
  deriving DecidableEq, Repr

def emptyDb : Db := ⟨[], [], []⟩

/-- `UPDATE sessions ... WHERE session_id = ?`: rewrite every row whose
key matches (the primary key makes it at most one). -/
def updateSessions (sid : String) (f : SessionRow → SessionRow)
    (rows : List (String × SessionRow)) : List (String × SessionRow) :=
  rows.map fun r => if r.1 = sid then (r.1, f r.2) else r

/-- `INSERT ... ON CONFLICT(session_id, message_type) DO UPDATE SET
count = count + 1` on the statistics table: `(session_id, message_type)`
is the table's primary key, so at most one row matches; its count is
incremented, and a fresh `(key, 1)` row is inserted when none matches. -/
def upsertStat (key : String × String) :
    List ((String × String) × Nat) → List ((String × String) × Nat)
  | [] => [(key, 1)]
  | r :: rest =>
    if r.1 = key then (r.1, r.2 + 1) :: rest else r :: upsertStat key rest

/-- `ProtobufDatabase.start_session` (wall-clock time `now` passed
explicitly). -/
def startSession (now : Nat) (sid port : String) (baud : Nat) (db : Db) : Db :=
  { db with sessions := db.sessions ++ [(sid, ⟨now, none, 0, port, baud⟩)] }

/-- `ProtobufDatabase.log_message`: append one `raw_messages` row,
increment the owning session's `message_count`, upsert the
`(session_id, type name)` statistics count. -/
def logMessage (now : Nat) (sid : String) (msgType : Nat)
    (raw : List Nat) (db : Db) : Db :=
  let name := messageTypeName msgType
  { sessions := updateSessions sid
      (fun r => { r with message_count := r.message_count + 1 }) db.sessions,
    raw_messages := db.raw_messages ++
      [⟨now, msgType, name, raw.length, raw, sid⟩],
    statistics := upsertStat (sid, name) db.statistics }

/-- `ProtobufDatabase.end_session`: unconditionally set
`end_time = time.time()` on the matching session row. -/
def endSession (now : Nat) (sid : String) (db : Db) : Db :=
  { db with
    sessions :=
      updateSessions sid (fun r => { r with end_time := some now }) db.sessions }

/-- `SELECT * FROM sessions WHERE session_id = sid`. -/
def lookupSession (db : Db) (sid : String) : Option SessionRow :=
  (db.sessions.find? (fun r => r.1 = sid)).map (·.2)

/-- The statistics count for `(sid, name)`, `0` when absent. -/
def statCount (db : Db) (sid name : String) : Nat :=
  ((db.statistics.find? (fun r => r.1 = (sid, name))).map (·.2)).getD 0

end ProtobufDb

namespace LinkQuality

/-- `NetworkMonitor.calculate_quality_score`, with Python floats modelled
as rationals:
`max(0, min(50, (rssi + 120) * 50 / 40)) + max(0, min(50, (snr + 10) * 50 / 20))`. -/
def calculate_quality_score (rssi snr : ℚ) : ℚ :=
  max 0 (min 50 ((rssi + 120) * 50 / 40)) + max 0 (min 50 ((snr + 10) * 50 / 20))

/-- The RSSI contribution in isolation. -/
def rssiScore (rssi : ℚ) : ℚ := max 0 (min 50 ((rssi + 120) * 50 / 40))

/-- The SNR contribution in isolation. -/
def snrScore (snr : ℚ) : ℚ := max 0 (min 50 ((snr + 10) * 50 / 20))

end LinkQuality

namespace Distributor

/-- `deque(maxlen=50)` capacity of `telemetry_state['latest_messages']`. -/
def TELEMETRY_MAXLEN : Nat := 50

/-- `deque.append` on a `maxlen=50` deque: the oldest element is evicted
once the capacity is reached. -/
def dequeAppend (buf : List Nat) (m : Nat) : List Nat :=
  let b := buf ++ [m]
  b.drop (b.length - TELEMETRY_MAXLEN)

/-- Publishing a list of messages in order (each logged message is
appended to `latest_messages`). -/
def publishAll (buf : List Nat) (msgs : List Nat) : List Nat :=
  msgs.foldl dequeAppend buf

/-- `last_seen_index = 0` at the top of `telemetry_stream.event_stream`. -/
def initialCursor : Nat := 0

/-- One iteration of the subscriber loop in `event_stream`: when
`current_count > last_seen_index` the messages `messages[last_seen_index:]`
are sent and the cursor becomes `current_count`; otherwise nothing is sent
and the cursor is unchanged. -/
def pollStep (buf : List Nat) (cursor : Nat) : List Nat × Nat :=
  if buf.length > cursor then (buf.drop cursor, buf.length) else ([], cursor)

/-- `/api/telemetry/latest`: `list(latest_messages)[-limit:]` (a Python
`[-limit:]` slice returns the whole list when `limit = 0`). -/
def telemetryLatest (limit : Nat) (buf : List Nat) : List Nat :=
  if limit = 0 then buf else buf.drop (buf.length - limit)

end Distributor

/-! ## Frame Scanner lemmas -/

namespace FrameScanner

theorem scanAux_map_msgType (chunk l : List Nat) :
    ∀ i, (scanAux chunk l i).map Frame.msgType = l.filter isTag := by
  induction l with
  | nil => intro i; rfl
  | cons b rest ih =>
    intro i
    cases htag : isTag b with
    | true => simp [scanAux, htag, ih]
    | false => simp [scanAux, htag, ih]

theorem length_contextWindow (chunk : List Nat) (i : Nat) :
    (contextWindow chunk i).length = min chunk.length (i + 15) - (i - 5) := by
  simp only [contextWindow, List.length_drop, List.length_take]
  omega

theorem contextWindow_length_le (chunk : List Nat) (i : Nat) :
    (contextWindow chunk i).length ≤ 20 := by
  rw [length_contextWindow]; omega

theorem contextWindow_ne_nil (chunk : List Nat) (i : Nat)
    (h : i < chunk.length) : contextWindow chunk i ≠ [] := by
  have hl : 0 < (contextWindow chunk i).length := by
    rw [length_contextWindow]; omega
  intro hnil
  rw [hnil] at hl
  simp at hl

theorem mem_contextWindow (chunk : List Nat) (i b : Nat)
    (h : chunk[i]? = some b) : b ∈ contextWindow chunk i := by
  have hi : i < chunk.length := (List.getElem?_eq_some.mp h).1
  have h1 : (contextWindow chunk i)[i - (i - 5)]? = some b := by
    unfold contextWindow
    rw [List.getElem?_drop]
    have harith : (i - 5) + (i - (i - 5)) = i := by omega
    rw [harith, List.getElem?_take]
    have hlt : i < min chunk.length (i + 15) := by omega
    rw [if_pos hlt]
    exact h
  exact List.getElem?_mem h1

theorem mem_scanAux (chunk : List Nat) :
    ∀ (l : List Nat) (i : Nat), l = chunk.drop i →
      ∀ f ∈ scanAux chunk l i,
        ∃ j, i ≤ j ∧ j < chunk.length ∧ chunk[j]? = some f.msgType ∧
          isTag f.msgType = true ∧ f.context = contextWindow chunk j := by
  intro l
  induction l with
  | nil =>
    intro i _ f hf
    simp [scanAux] at hf
  | cons b rest ih =>
    intro i hdrop f hf
    have hrest : rest = chunk.drop (i + 1) := by
      have hcong := congrArg (List.drop 1) hdrop
      simpa [List.drop_drop] using hcong
    have hb : chunk[i]? = some b := by
      have h0 : (chunk.drop i)[0]? = some b := by rw [← hdrop]; simp
      rw [List.getElem?_drop] at h0
      simpa using h0
    have hi : i < chunk.length := (List.getElem?_eq_some.mp hb).1
    cases htag : isTag b with
    | false =>
      simp only [scanAux, htag, if_neg] at hf
      obtain ⟨j, hj1, hj2, hj3, hj4, hj5⟩ := ih (i + 1) hrest f (by simpa using hf)
      exact ⟨j, by omega, hj2, hj3, hj4, hj5⟩
    | true =>
      simp only [scanAux, htag, if_pos, List.mem_cons] at hf
      rcases hf with hf | hf
      · refine ⟨i, le_refl i, hi, ?_, ?_, ?_⟩
        · rw [hf]; exact hb
        · rw [hf]; exact htag
        · rw [hf]
      · obtain ⟨j, hj1, hj2, hj3, hj4, hj5⟩ := ih (i + 1) hrest f hf
        exact ⟨j, by omega, hj2, hj3, hj4, hj5⟩

theorem mem_processChunk (chunk : List Nat) (f : Frame)
    (hf : f ∈ processChunk chunk) :
    ∃ j, j < chunk.length ∧ chunk[j]? = some f.msgType ∧
      isTag f.msgType = true ∧ f.context = contextWindow chunk j := by
  obtain ⟨j, _, hj2, hj3, hj4, hj5⟩ :=
    mem_scanAux chunk chunk 0 (by simp) f hf
  exact ⟨j, hj2, hj3, hj4, hj5⟩

theorem processChunk_map_msgType (chunk : List Nat) :
    (processChunk chunk).map Frame.msgType = chunk.filter isTag :=
  scanAux_map_msgType chunk chunk 0

end FrameScanner

/-! ## Claim theorems: Frame Scanner -/

/-- C2: a chunk containing exactly one byte in the valid tag range
`0x10`–`0x17` makes the scanner emit exactly one frame whose type equals
that tag; bytes outside the range produce no frame (frame count always
equals tag count); and the chunk `[0x01, 0x12, 0x02, 0x03]` produces
exactly one frame of type `0x12` whose context window contains all four
bytes. -/
theorem C2_frame_scanner_single_tag :
    (∀ chunk : List Nat,
      (FrameScanner.processChunk chunk).length =
        (chunk.filter FrameScanner.isTag).length) ∧
    (∀ (chunk : List Nat) (t : Nat),
      chunk.filter FrameScanner.isTag = [t] →
        ∃ ctx, FrameScanner.processChunk chunk = [⟨t, ctx⟩]) ∧
    FrameScanner.processChunk [0x01, 0x12, 0x02, 0x03] =
      [⟨0x12, [0x01, 0x12, 0x02, 0x03]⟩] := by
  refine ⟨?_, ?_, by decide⟩
  · intro chunk
    have h := FrameScanner.processChunk_map_msgType chunk
    calc (FrameScanner.processChunk chunk).length
        = ((FrameScanner.processChunk chunk).map
            FrameScanner.Frame.msgType).length := (List.length_map _ _).symm
      _ = (chunk.filter FrameScanner.isTag).length := by rw [h]
  · intro chunk t ht
    have h := FrameScanner.processChunk_map_msgType chunk
    rw [ht] at h
    cases hproc : FrameScanner.processChunk chunk with
    | nil => rw [hproc] at h; simp at h
    | cons f rest =>
      cases rest with
      | nil =>
        rw [hproc] at h
        simp at h
        cases f with
        | mk mt ctx =>
          refine ⟨ctx, ?_⟩
          simp_all
      | cons f2 rest2 => rw [hproc] at h; simp at h

/-- Witness for C2 at the concrete chunk of the scenario. -/
theorem C2_frame_scanner_single_tag_witness :
    ∃ ctx, FrameScanner.processChunk [0x01, 0x12, 0x02, 0x03] =
      [⟨0x12, ctx⟩] :=
  C2_frame_scanner_single_tag.2.1 [0x01, 0x12, 0x02, 0x03] 0x12 (by decide)

/-- C10: every frame the scanner emits has a non-empty context of at most
20 bytes, the context contains the tag byte itself, and the context is
exactly the chunk slice from `i - 5` to `min len (i + 15)` around the tag
offset `i`. -/
theorem C10_frame_payload_window :
    ∀ (chunk : List Nat) (f : FrameScanner.Frame),
      f ∈ FrameScanner.processChunk chunk →
        f.context ≠ [] ∧ f.context.length ≤ 20 ∧ f.msgType ∈ f.context ∧
        ∃ i, i < chunk.length ∧ chunk[i]? = some f.msgType ∧
          f.context = FrameScanner.contextWindow chunk i := by
  intro chunk f hf
  obtain ⟨j, hj1, hj2, _, hj4⟩ := FrameScanner.mem_processChunk chunk f hf
  refine ⟨?_, ?_, ?_, j, hj1, hj2, hj4⟩
  · rw [hj4]; exact FrameScanner.contextWindow_ne_nil chunk j hj1
  · rw [hj4]; exact FrameScanner.contextWindow_length_le chunk j
  · rw [hj4]; exact FrameScanner.mem_contextWindow chunk j _ hj2

/-- Witness for C10 at a concrete emitted frame. -/
theorem C10_frame_payload_window_witness :
    (⟨0x12, [0x01, 0x12, 0x02, 0x03]⟩ : FrameScanner.Frame).context ≠ [] ∧
    (⟨0x12, [0x01, 0x12, 0x02, 0x03]⟩ :
      FrameScanner.Frame).context.length ≤ 20 ∧
    (⟨0x12, [0x01, 0x12, 0x02, 0x03]⟩ : FrameScanner.Frame).msgType ∈
      (⟨0x12, [0x01, 0x12, 0x02, 0x03]⟩ : FrameScanner.Frame).context ∧
    ∃ i, i < ([0x01, 0x12, 0x02, 0x03] : List Nat).length ∧
      ([0x01, 0x12, 0x02, 0x03] : List Nat)[i]? =
        some (⟨0x12, [0x01, 0x12, 0x02, 0x03]⟩ :
          FrameScanner.Frame).msgType ∧
      (⟨0x12, [0x01, 0x12, 0x02, 0x03]⟩ : FrameScanner.Frame).context =
        FrameScanner.contextWindow [0x01, 0x12, 0x02, 0x03] i :=
  C10_frame_payload_window [0x01, 0x12, 0x02, 0x03]
    ⟨0x12, [0x01, 0x12, 0x02, 0x03]⟩ (by decide)

/-! ## Claim theorems: protocol header encode/decode -/

/-- C1 (code bug): `to_bytes` packs the 26-byte format `'<BBHIQ8sH'`, while
`from_bytes` slices 18 bytes and unpacks the same 26-byte format, so
decoding can never succeed: every decode raises (`struct.error` for any
input of at least 18 bytes), and in particular the round trip at a
concrete in-range header fails instead of reproducing the header. -/
theorem C1_header_roundtrip_code_bug :
    (∀ data : List Nat, ∃ e, LogSplitterProtocol.fromBytes data =
      .error e) ∧
    (LogSplitterProtocol.toBytes
      ⟨1, 0x40, 7, 123456, [67, 84, 82, 76], 0⟩).length = 26 ∧
    LogSplitterProtocol.HEADER_SIZE = 18 ∧
    LogSplitterProtocol.fromBytes
      (LogSplitterProtocol.toBytes
        ⟨1, 0x40, 7, 123456, [67, 84, 82, 76], 0⟩) =
      .error .structError ∧
    LogSplitterProtocol.parseMessage
      (LogSplitterProtocol.toBytes
        ⟨1, 0x40, 7, 123456, [67, 84, 82, 76], 0⟩) =
      .error .structError := by
  refine ⟨?_, by decide, by decide, by rfl, by rfl⟩
  intro data
  unfold LogSplitterProtocol.fromBytes
  by_cases hlen : data.length < 18
  · rw [if_pos hlen]; exact ⟨_, rfl⟩
  · rw [if_neg hlen]
    have ht : (data.take 18).length = 18 := by
      rw [List.length_take]; omega
    have hu : LogSplitterProtocol.unpackHeaderFormat (data.take 18) =
        none := by
      simp [LogSplitterProtocol.unpackHeaderFormat, ht,
        LogSplitterProtocol.packedHeaderSize]
    rw [hu]
    exact ⟨_, rfl⟩

/-- C6 (code bug): `parse_message` raises the header-too-short condition
exactly on inputs shorter than 18 bytes, but on every long-enough input
it raises `struct.error` — never `PayloadSizeMismatch` — because
`from_bytes` unpacks a 26-byte format from an 18-byte slice.  In
particular a message declaring 0 payload bytes while 2 are present fails
with `struct.error` instead of the payload-size mismatch. -/
theorem C6_parse_errors_code_bug :
    (∀ data : List Nat, LogSplitterProtocol.parseMessage data =
      if data.length < 18 then .error .headerTooShort
      else .error .structError) ∧
    LogSplitterProtocol.parseMessage
      (List.replicate 18 0 ++ [0xAB, 0xCD]) = .error .structError := by
  refine ⟨?_, by rfl⟩
  intro data
  unfold LogSplitterProtocol.parseMessage
  by_cases hlen : data.length < 18
  · rw [if_pos hlen, if_pos hlen]
  · rw [if_neg hlen, if_neg hlen]
    have ht : (data.take 18).length = 18 := by
      rw [List.length_take]; omega
    have hu : LogSplitterProtocol.unpackHeaderFormat
        ((data.take 18).take 18) = none := by
      simp [LogSplitterProtocol.unpackHeaderFormat, List.length_take,
        LogSplitterProtocol.packedHeaderSize]
      omega
    unfold LogSplitterProtocol.fromBytes
    rw [if_neg (by omega : ¬ (data.take 18).length < 18), hu]

/-! ## Sequence Tracker lemmas -/

namespace SequenceTracker

theorem seqCheck_consecutive (p s : Nat) (h : s = seqExpected p) :
    seqCheck (some p) s = [] := by
  simp [seqCheck, h]

theorem runSeqs_chain (p : Nat) (seqs : List Nat)
    (h : List.Chain' Consecutive (p :: seqs)) :
    runSeqs (some p) seqs = [] := by
  induction seqs generalizing p with
  | nil => rfl
  | cons s rest ih =>
    rw [List.chain'_cons] at h
    simp only [runSeqs, seqCheck_consecutive p s h.1]
    simpa using ih s h.2

theorem runSeqs_chain_none (seqs : List Nat)
    (h : List.Chain' Consecutive seqs) : runSeqs none seqs = [] := by
  cases seqs with
  | nil => rfl
  | cons p rest =>
    simp only [runSeqs, seqCheck]
    simpa using runSeqs_chain p rest h

theorem lastVal_cons (p x : Nat) (xs : List Nat) :
    lastVal p (x :: xs) = lastVal x xs := rfl

theorem runSeqs_append (p : Nat) (xs ys : List Nat) :
    runSeqs (some p) (xs ++ ys) =
      runSeqs (some p) xs ++ runSeqs (some (lastVal p xs)) ys := by
  induction xs generalizing p with
  | nil => simp [runSeqs, lastVal]
  | cons x rest ih =>
    simp only [List.cons_append, runSeqs, lastVal_cons, List.append_eq,
      List.append_assoc]
    rw [ih x]

end SequenceTracker

/-! ## Claim theorems: Sequence Tracker -/

/-- C3: no gap check happens on the first frame; for a previous value `p`
and a new value `s` a gap event `(expected, s)` with
`expected = (p + 1) % 256` is emitted exactly when `s` differs from the
expected value; the frame is still decoded and the tracker state updated
regardless; the receiver's gap stream over a run equals the per-sequence
check; a strictly consecutive mod-256 run emits zero gap events; and a
run with exactly one skipped value emits exactly one gap event carrying
the expected/actual pair. -/
theorem C3_sequence_tracker_gaps :
    (∀ data : List Nat,
      (SequenceTracker.decodeBinaryMessage ⟨none⟩ data).2.2 = []) ∧
    (∀ p s, SequenceTracker.seqCheck (some p) s =
      if s = SequenceTracker.seqExpected p then []
      else [⟨SequenceTracker.seqExpected p, s⟩]) ∧
    (∀ (st : SequenceTracker.RecvState) (data : List Nat),
      6 ≤ data.length →
        SequenceTracker.decodeBinaryMessage st data =
          (some ⟨data.getD 0 0, data.getD 1 0,
              LogSplitterProtocol.leRead data 2 4, data.drop 6⟩,
            ⟨some (data.getD 1 0)⟩,
            SequenceTracker.seqCheck st.lastSeq (data.getD 1 0))) ∧
    (∀ seqs : List Nat,
      List.Chain' SequenceTracker.Consecutive seqs →
        SequenceTracker.runSeqs none seqs = []) ∧
    (∀ (p0 : Nat) (pre : List Nat) (s : Nat) (suf : List Nat),
      List.Chain' SequenceTracker.Consecutive (p0 :: pre) →
      s ≠ SequenceTracker.seqExpected (SequenceTracker.lastVal p0 pre) →
      List.Chain' SequenceTracker.Consecutive (s :: suf) →
        SequenceTracker.runSeqs none ((p0 :: pre) ++ s :: suf) =
          [⟨SequenceTracker.seqExpected (SequenceTracker.lastVal p0 pre),
            s⟩]) := by
  refine ⟨?_, ?_, ?_, SequenceTracker.runSeqs_chain_none, ?_⟩
  · intro data
    unfold SequenceTracker.decodeBinaryMessage
    by_cases h : data.length < 6
    · rw [if_pos h]
    · rw [if_neg h]
      simp [SequenceTracker.seqCheck]
  · intro p s
    simp only [SequenceTracker.seqCheck, ne_eq, ite_not]
  · intro st data h
    unfold SequenceTracker.decodeBinaryMessage
    rw [if_neg (by omega)]
  · intro p0 pre s suf hpre hskip hsuf
    have h1 : SequenceTracker.runSeqs none ((p0 :: pre) ++ s :: suf) =
        SequenceTracker.runSeqs (some p0) (pre ++ s :: suf) := by
      simp [SequenceTracker.runSeqs, SequenceTracker.seqCheck]
    rw [h1, SequenceTracker.runSeqs_append p0 pre (s :: suf),
      SequenceTracker.runSeqs_chain p0 pre hpre]
    simp only [List.nil_append, SequenceTracker.runSeqs]
    rw [SequenceTracker.runSeqs_chain s suf hsuf]
    simp [SequenceTracker.seqCheck, hskip]

/-- Witness for C3: a concrete consecutive run with one skipped value.
The run `[10, 11, 13, 14]` (12 skipped) emits exactly the gap event
`(expected 12, actual 13)`, and a concrete 6-byte frame is decoded with
its state update and gap list. -/
theorem C3_sequence_tracker_gaps_witness :
    SequenceTracker.decodeBinaryMessage ⟨some 10⟩ [0x12, 11, 1, 0, 0, 0] =
      (some ⟨0x12, 11, 1, []⟩, ⟨some 11⟩, []) ∧
    SequenceTracker.runSeqs none [10, 11, 13, 14] = [⟨12, 13⟩] ∧
    SequenceTracker.runSeqs none [10, 11, 12, 13] = [] := by
  refine ⟨?_, ?_, ?_⟩
  · have h := C3_sequence_tracker_gaps.2.2.1 ⟨some 10⟩
      [0x12, 11, 1, 0, 0, 0] (by decide)
    rw [h]
    rfl
  · have h := C3_sequence_tracker_gaps.2.2.2.2 10 [11] 13 [14]
      (by simp [List.chain'_cons, SequenceTracker.Consecutive,
        SequenceTracker.seqExpected])
      (by decide)
      (by simp [List.chain'_cons, SequenceTracker.Consecutive,
        SequenceTracker.seqExpected])
    simpa using h
  · exact C3_sequence_tracker_gaps.2.2.2.1 [10, 11, 12, 13]
      (by simp [List.chain'_cons, SequenceTracker.Consecutive,
        SequenceTracker.seqExpected])

/-! ## Persistence Store lemmas -/

namespace ProtobufDb

theorem find?_updateSessions (sid : String) (f : SessionRow → SessionRow)
    (rows : List (String × SessionRow)) :
    (updateSessions sid f rows).find? (fun r => r.1 = sid) =
      (rows.find? (fun r => r.1 = sid)).map (fun r => (r.1, f r.2)) := by
  induction rows with
  | nil => rfl
  | cons hd tl ih =>
    by_cases h : hd.1 = sid
    · simp [updateSessions, h]
    · simp [updateSessions, h]
      simpa [updateSessions] using ih

theorem lookupSession_updateSessions (db : Db) (sid : String)
    (f : SessionRow → SessionRow) :
    lookupSession { db with sessions := updateSessions sid f db.sessions }
        sid = (lookupSession db sid).map f := by
  unfold lookupSession
  rw [find?_updateSessions]
  cases db.sessions.find? (fun r => r.1 = sid) <;> rfl

theorem find?_updateSessions_other (sid sid2 : String) (hne : sid2 ≠ sid)
    (f : SessionRow → SessionRow) (rows : List (String × SessionRow)) :
    (updateSessions sid f rows).find? (fun r => r.1 = sid2) =
      rows.find? (fun r => r.1 = sid2) := by
  induction rows with
  | nil => rfl
  | cons hd tl ih =>
    simp only [updateSessions, List.map_cons] at ih ⊢
    by_cases h1 : hd.1 = sid
    · have h2 : ¬ hd.1 = sid2 := by
        intro he
        exact hne (by rw [← he, h1])
      rw [if_pos h1]
      rw [List.find?_cons_of_neg _ (by simp [h2]),
        List.find?_cons_of_neg _ (by simp [h2])]
      exact ih
    · rw [if_neg h1]
      by_cases h2 : hd.1 = sid2
      · rw [List.find?_cons_of_pos _ (by simp [h2]),
          List.find?_cons_of_pos _ (by simp [h2])]
      · rw [List.find?_cons_of_neg _ (by simp [h2]),
          List.find?_cons_of_neg _ (by simp [h2])]
        exact ih

theorem lookupSession_updateSessions_other (db : Db) (sid sid2 : String)
    (f : SessionRow → SessionRow) (hne : sid2 ≠ sid) :
    lookupSession { db with sessions := updateSessions sid f db.sessions }
        sid2 = lookupSession db sid2 := by
  unfold lookupSession
  rw [find?_updateSessions_other sid sid2 hne]

theorem find?_upsertStat (key : String × String)
    (rows : List ((String × String) × Nat)) :
    ((upsertStat key rows).find? (fun r => r.1 = key)).map (·.2) =
      some ((((rows.find? (fun r => r.1 = key)).map (·.2)).getD 0) + 1) := by
  induction rows with
  | nil => simp [upsertStat]
  | cons hd tl ih =>
    by_cases h : hd.1 = key
    · simp [upsertStat, h]
    · simp [upsertStat, h]
      simpa using ih

theorem statCount_logMessage (db : Db) (now : Nat) (sid : String)
    (t : Nat) (raw : List Nat) :
    statCount (logMessage now sid t raw db) sid (messageTypeName t) =
      statCount db sid (messageTypeName t) + 1 := by
  unfold statCount logMessage
  simp only
  rw [find?_upsertStat]
  rfl

end ProtobufDb

/-! ## Claim theorems: Persistence Store -/

/-- C4: each `log_message` call appends exactly one `raw_messages` row,
increments the owning session's `message_count` by one, and upserts the
`(session_id, type name)` statistics count by one; and three calls with
type `0x12` on a fresh session leave `statistics = (session, "Pressure", 3)`
and `message_count = 3`. -/
theorem C4_log_message_counts :
    (∀ (now : Nat) (sid : String) (t : Nat) (raw : List Nat)
        (db : ProtobufDb.Db),
      (ProtobufDb.logMessage now sid t raw db).raw_messages =
        db.raw_messages ++
          [⟨now, t, ProtobufDb.messageTypeName t, raw.length, raw, sid⟩] ∧
      (ProtobufDb.logMessage now sid t raw db).raw_messages.length =
        db.raw_messages.length + 1 ∧
      ProtobufDb.statCount (ProtobufDb.logMessage now sid t raw db) sid
          (ProtobufDb.messageTypeName t) =
        ProtobufDb.statCount db sid (ProtobufDb.messageTypeName t) + 1 ∧
      ∀ row, ProtobufDb.lookupSession db sid = some row →
        ProtobufDb.lookupSession (ProtobufDb.logMessage now sid t raw db)
            sid =
          some { row with message_count := row.message_count + 1 }) ∧
    ProtobufDb.statCount
        (ProtobufDb.logMessage 3 "s" 0x12 []
          (ProtobufDb.logMessage 2 "s" 0x12 []
            (ProtobufDb.logMessage 1 "s" 0x12 []
              (ProtobufDb.startSession 0 "s" "COM8" 38400
                ProtobufDb.emptyDb)))) "s" "Pressure" = 3 ∧
    (ProtobufDb.lookupSession
        (ProtobufDb.logMessage 3 "s" 0x12 []
          (ProtobufDb.logMessage 2 "s" 0x12 []
            (ProtobufDb.logMessage 1 "s" 0x12 []
              (ProtobufDb.startSession 0 "s" "COM8" 38400
                ProtobufDb.emptyDb)))) "s").map
      ProtobufDb.SessionRow.message_count = some 3 := by
  refine ⟨?_, by decide, by decide⟩
  intro now sid t raw db
  refine ⟨rfl, by simp [ProtobufDb.logMessage], ?_, ?_⟩
  · exact ProtobufDb.statCount_logMessage db now sid t raw
  · intro row hrow
    have h := ProtobufDb.lookupSession_updateSessions db sid
      (fun r => { r with message_count := r.message_count + 1 })
    unfold ProtobufDb.logMessage
    unfold ProtobufDb.lookupSession at h hrow ⊢
    simp only at h ⊢
    rw [h, hrow]
    rfl

/-- Witness for C4 at a concrete database state. -/
theorem C4_log_message_counts_witness :
    ProtobufDb.lookupSession
        (ProtobufDb.logMessage 5 "s" 0x12 [1, 2]
          (ProtobufDb.startSession 0 "s" "COM8" 38400 ProtobufDb.emptyDb))
        "s" =
      some { start_time := 0, end_time := none, message_count := 1,
             port := "COM8", baud_rate := 38400 } :=
  (C4_log_message_counts.1 5 "s" 0x12 [1, 2]
      (ProtobufDb.startSession 0 "s" "COM8" 38400 ProtobufDb.emptyDb)).2.2.2
    ⟨0, none, 0, "COM8", 38400⟩ (by decide)

/-- C5 counterexample: `end_session` is not idempotent.  Ending the
session at time 10 sets `end_time = 10`; ending it again at time 20
overwrites `end_time` with 20, changing the value established by the
first call. -/
theorem C5_end_session_not_idempotent_counterexample :
    (ProtobufDb.lookupSession
        (ProtobufDb.endSession 10 "s"
          (ProtobufDb.startSession 0 "s" "COM8" 38400 ProtobufDb.emptyDb))
        "s").map ProtobufDb.SessionRow.end_time = some (some 10) ∧
    (ProtobufDb.lookupSession
        (ProtobufDb.endSession 20 "s"
          (ProtobufDb.endSession 10 "s"
            (ProtobufDb.startSession 0 "s" "COM8" 38400
              ProtobufDb.emptyDb)))
        "s").map ProtobufDb.SessionRow.end_time = some (some 20) := by
  decide

/-- C5 amended: every `end_session` call overwrites the matching
session's `end_time` with the current wall-clock time (so a later second
call changes it), and modifies nothing else — the session's other fields,
the other sessions, and the other tables are untouched. -/
theorem C5_end_session_overwrites :
    ∀ (now : Nat) (sid : String) (db : ProtobufDb.Db)
      (row : ProtobufDb.SessionRow),
      ProtobufDb.lookupSession db sid = some row →
        ProtobufDb.lookupSession (ProtobufDb.endSession now sid db) sid =
          some { row with end_time := some now } ∧
        (∀ sid2, sid2 ≠ sid →
          ProtobufDb.lookupSession (ProtobufDb.endSession now sid db)
              sid2 = ProtobufDb.lookupSession db sid2) ∧
        (ProtobufDb.endSession now sid db).raw_messages =
          db.raw_messages ∧
        (ProtobufDb.endSession now sid db).statistics = db.statistics := by
  intro now sid db row hrow
  refine ⟨?_, ?_, rfl, rfl⟩
  · have h := ProtobufDb.lookupSession_updateSessions db sid
      (fun r => { r with end_time := some now })
    unfold ProtobufDb.endSession
    unfold ProtobufDb.lookupSession at h hrow ⊢
    simp only at h ⊢
    rw [h, hrow]
    rfl
  · intro sid2 hne
    exact ProtobufDb.lookupSession_updateSessions_other db sid sid2
      (fun r => { r with end_time := some now }) hne

/-- Witness for the amended C5 at a concrete database. -/
theorem C5_end_session_overwrites_witness :
    ProtobufDb.lookupSession
        (ProtobufDb.endSession 20 "s"
          (ProtobufDb.endSession 10 "s"
            (ProtobufDb.startSession 0 "s" "COM8" 38400
              ProtobufDb.emptyDb))) "s" =
      some { start_time := 0, end_time := some 20, message_count := 0,
             port := "COM8", baud_rate := 38400 } ∧
    ProtobufDb.lookupSession
        (ProtobufDb.endSession 20 "s"
          (ProtobufDb.endSession 10 "s"
            (ProtobufDb.startSession 0 "s" "COM8" 38400
              ProtobufDb.emptyDb))) "t" =
      ProtobufDb.lookupSession
        (ProtobufDb.endSession 10 "s"
          (ProtobufDb.startSession 0 "s" "COM8" 38400
            ProtobufDb.emptyDb)) "t" :=
  ⟨(C5_end_session_overwrites 20 "s"
      (ProtobufDb.endSession 10 "s"
        (ProtobufDb.startSession 0 "s" "COM8" 38400 ProtobufDb.emptyDb))
      ⟨0, some 10, 0, "COM8", 38400⟩ (by decide)).1,
   (C5_end_session_overwrites 20 "s"
      (ProtobufDb.endSession 10 "s"
        (ProtobufDb.startSession 0 "s" "COM8" 38400 ProtobufDb.emptyDb))
      ⟨0, some 10, 0, "COM8", 38400⟩ (by decide)).2.1 "t" (by decide)⟩

/-! ## Claim theorems: Link-Quality Monitor -/

/-- C7: the quality score is the sum of an RSSI contribution and an SNR
contribution, each linearly clamped to `[0, 50]` (over `-120..-80` dBm
and `-10..+10` dB respectively); the total is bounded within `[0, 100]`;
it saturates at exactly 100 for `rssi ≥ -80` with `snr ≥ 10`, and at
exactly 0 for `rssi ≤ -120` with `snr ≤ -10`. -/
theorem C7_quality_score_bounds :
    ∀ rssi snr : ℚ,
      LinkQuality.calculate_quality_score rssi snr =
        LinkQuality.rssiScore rssi + LinkQuality.snrScore snr ∧
      0 ≤ LinkQuality.rssiScore rssi ∧ LinkQuality.rssiScore rssi ≤ 50 ∧
      0 ≤ LinkQuality.snrScore snr ∧ LinkQuality.snrScore snr ≤ 50 ∧
      0 ≤ LinkQuality.calculate_quality_score rssi snr ∧
      LinkQuality.calculate_quality_score rssi snr ≤ 100 ∧
      (-80 ≤ rssi → 10 ≤ snr →
        LinkQuality.calculate_quality_score rssi snr = 100) ∧
      (rssi ≤ -120 → snr ≤ -10 →
        LinkQuality.calculate_quality_score rssi snr = 0) := by
  intro rssi snr
  have hr0 : (0 : ℚ) ≤ LinkQuality.rssiScore rssi := le_max_left 0 _
  have hr50 : LinkQuality.rssiScore rssi ≤ 50 :=
    max_le (by norm_num) (min_le_left 50 _)
  have hs0 : (0 : ℚ) ≤ LinkQuality.snrScore snr := le_max_left 0 _
  have hs50 : LinkQuality.snrScore snr ≤ 50 :=
    max_le (by norm_num) (min_le_left 50 _)
  have hsum : LinkQuality.calculate_quality_score rssi snr =
      LinkQuality.rssiScore rssi + LinkQuality.snrScore snr := rfl
  refine ⟨hsum, hr0, hr50, hs0, hs50, ?_, ?_, ?_, ?_⟩
  · rw [hsum]; linarith
  · rw [hsum]; linarith
  · intro hrssi hsnr
    have h1 : (50 : ℚ) ≤ (rssi + 120) * 50 / 40 := by linarith
    have h2 : (50 : ℚ) ≤ (snr + 10) * 50 / 20 := by linarith
    rw [hsum]
    unfold LinkQuality.rssiScore LinkQuality.snrScore
    rw [min_eq_left h1, min_eq_left h2]
    norm_num
  · intro hrssi hsnr
    have h1 : (rssi + 120) * 50 / 40 ≤ (0 : ℚ) := by linarith
    have h2 : (snr + 10) * 50 / 20 ≤ (0 : ℚ) := by linarith
    rw [hsum]
    unfold LinkQuality.rssiScore LinkQuality.snrScore
    rw [max_eq_left (le_trans (min_le_right 50 _) h1),
      max_eq_left (le_trans (min_le_right 50 _) h2)]
    norm_num

/-- Witness for C7 at concrete saturating inputs. -/
theorem C7_quality_score_bounds_witness :
    LinkQuality.calculate_quality_score (-80) 10 = 100 ∧
    LinkQuality.calculate_quality_score (-120) (-10) = 0 ∧
    0 ≤ LinkQuality.calculate_quality_score (-100) 0 ∧
    LinkQuality.calculate_quality_score (-100) 0 ≤ 100 :=
  ⟨(C7_quality_score_bounds (-80) 10).2.2.2.2.2.2.2.1 (by norm_num)
      (by norm_num),
   (C7_quality_score_bounds (-120) (-10)).2.2.2.2.2.2.2.2 (by norm_num)
      (by norm_num),
   (C7_quality_score_bounds (-100) 0).2.2.2.2.2.1,
   (C7_quality_score_bounds (-100) 0).2.2.2.2.2.2.1⟩

/-! ## Live Distributor lemmas -/

namespace Distributor

theorem length_dequeAppend (buf : List Nat) (m : Nat) :
    (dequeAppend buf m).length = min (buf.length + 1) TELEMETRY_MAXLEN := by
  simp only [dequeAppend, List.length_drop, List.length_append,
    List.length_cons, List.length_nil]
  omega

theorem length_publishAll_le (msgs : List Nat) :
    ∀ buf : List Nat, buf.length ≤ TELEMETRY_MAXLEN →
      (publishAll buf msgs).length ≤ TELEMETRY_MAXLEN := by
  induction msgs with
  | nil => intro buf h; exact h
  | cons m rest ih =>
    intro buf h
    have hstep : (dequeAppend buf m).length ≤ TELEMETRY_MAXLEN := by
      rw [length_dequeAppend]; omega
    exact ih (dequeAppend buf m) hstep

theorem length_publishAll_full (msgs : List Nat) :
    ∀ buf : List Nat, buf.length = TELEMETRY_MAXLEN →
      (publishAll buf msgs).length = TELEMETRY_MAXLEN := by
  induction msgs with
  | nil => intro buf h; exact h
  | cons m rest ih =>
    intro buf h
    have hstep : (dequeAppend buf m).length = TELEMETRY_MAXLEN := by
      rw [length_dequeAppend]
      simp only [TELEMETRY_MAXLEN] at h ⊢
      omega
    exact ih (dequeAppend buf m) hstep

end Distributor

/-! ## Claim theorems: Live Distributor -/

/-- C8 counterexample: the subscriber loop starts with
`last_seen_index = 0`, so a subscriber that connects after one frame has
been published receives that backlog frame on its very first poll — not
nothing, as the claim states. -/
theorem C8_subscriber_backlog_counterexample :
    (Distributor.publishAll [] [7]).length = 1 ∧
    (Distributor.pollStep (Distributor.publishAll [] [7])
        Distributor.initialCursor).1 = [7] := by
  decide

/-- C8 amended: a new subscriber's cursor is initialized to zero, so its
first poll delivers the entire current buffer (the up-to-50 most recent
already-published frames) as backlog; the separately requested
`/api/telemetry/latest` snapshot is bounded by its positive `limit`
parameter. -/
theorem C8_initial_cursor_delivers_backlog :
    (∀ buf : List Nat,
      (Distributor.pollStep buf Distributor.initialCursor).1 = buf) ∧
    (∀ (limit : Nat) (buf : List Nat), 0 < limit →
      (Distributor.telemetryLatest limit buf).length ≤ limit) := by
  constructor
  · intro buf
    unfold Distributor.pollStep Distributor.initialCursor
    by_cases h : buf.length > 0
    · rw [if_pos h]; simp
    · rw [if_neg h]
      have hnil : buf = [] := List.length_eq_zero.mp (by omega)
      rw [hnil]
  · intro limit buf h
    unfold Distributor.telemetryLatest
    rw [if_neg (by omega)]
    rw [List.length_drop]
    omega

/-- Witness for the amended C8 at a concrete buffer. -/
theorem C8_initial_cursor_delivers_backlog_witness :
    (Distributor.pollStep [4, 5, 6] Distributor.initialCursor).1 =
      [4, 5, 6] ∧
    (Distributor.telemetryLatest 2 [4, 5, 6]).length ≤ 2 :=
  ⟨C8_initial_cursor_delivers_backlog.1 [4, 5, 6],
   C8_initial_cursor_delivers_backlog.2 2 [4, 5, 6] (by decide)⟩

set_option maxRecDepth 4000 in
/-- C9 counterexample: the buffer is bounded at 50, but a subscriber that
has consumed a full buffer (cursor 50) and then falls behind by 51
published frames receives nothing at all on its next poll — it silently
stalls instead of observing a clamped cursor and the most recent
frames. -/
theorem C9_stalled_subscriber_counterexample :
    (Distributor.publishAll (Distributor.publishAll [] (List.range 50))
        (List.range 51)).length = 50 ∧
    (Distributor.pollStep
        (Distributor.publishAll (Distributor.publishAll [] (List.range 50))
          (List.range 51)) 50).1 = [] := by
  decide

/-- C9 amended: the buffer never holds more than the fixed capacity of 50
frames; but there is no cursor clamp — a subscriber whose cursor has
reached the full buffer's length receives no further frames on any later
poll, no matter how many new frames are published (newly published
frames are silently lost to it, with no discontinuity signal). -/
theorem C9_bounded_buffer_silent_stall :
    (∀ (buf msgs : List Nat), buf.length ≤ 50 →
      (Distributor.publishAll buf msgs).length ≤ 50) ∧
    (∀ (buf msgs : List Nat) (cursor : Nat),
      buf.length = 50 → 50 ≤ cursor →
        (Distributor.pollStep (Distributor.publishAll buf msgs)
            cursor).1 = [] ∧
        (Distributor.pollStep (Distributor.publishAll buf msgs)
            cursor).2 = cursor) := by
  constructor
  · intro buf msgs h
    exact Distributor.length_publishAll_le msgs buf h
  · intro buf msgs cursor hfull hcur
    have hlen : (Distributor.publishAll buf msgs).length = 50 :=
      Distributor.length_publishAll_full msgs buf hfull
    unfold Distributor.pollStep
    rw [if_neg (by omega)]
    exact ⟨rfl, rfl⟩

/-- Witness for the amended C9 at a concrete overfull run. -/
theorem C9_bounded_buffer_silent_stall_witness :
    (Distributor.publishAll (List.range 50) (List.range 51)).length ≤
      50 ∧
    (Distributor.pollStep
        (Distributor.publishAll (List.range 50) (List.range 51)) 50).1 =
      [] :=
  ⟨C9_bounded_buffer_silent_stall.1 (List.range 50) (List.range 51)
      (by decide),
   (C9_bounded_buffer_silent_stall.2 (List.range 50) (List.range 51) 50
      (by decide) (by decide)).1⟩
